import Mathlib

/-
Verification development for `mjrl/algos/npg_off_policy.py` (class `NPGOffPolicy`).

The development has two layers.

The first layer is a control-flow model of the methods of `NPGOffPolicy`
(`train_step`, `update_policy`, `update_from_states_actions`, `process_paths`,
`process_replay`).  Numeric arrays are lists of `FVal` values (rationals
extended with the IEEE specials `nan`, `inf`, `ninf`, which the fault check of
`update_policy` is about).  All calls into code outside the provided source
file (the sampler, the Q-function baseline, the replay buffer, and the
numeric routines inherited from the on-policy `NPG` base class) are supplied
by an `Oracle` record, and every externally visible action is recorded in an
event trace so that ordering properties (what was computed before a fault was
raised, which advantage source was drawn from, what the metrics writer did)
can be stated.

The second layer is a real-valued model of the numeric core: the weight
normalization of `update_policy` and the gradient/step-size/parameter-write
arithmetic of `update_from_states_actions`, with the conjugate-gradient solver
`cg_solve` modelled from the specification (its file, `mjrl/utils/cg_solve.py`,
is imported by the trainer but is not part of the provided sources).
-/

deriving instance DecidableEq for Except

namespace Mjrl

set_option maxHeartbeats 1000000

/-! ## Float values

`FVal` models a numpy floating-point scalar as an exact (integer-valued)
number together with the IEEE special values; the real-valued layer below
carries the exact fractional arithmetic, while this layer is about
control flow and special-value propagation.  Only the operations the source
file uses on possibly-special values are defined: negation, addition,
multiplication, subtraction, and the `np.isnan` / `np.isfinite` tests. -/

inductive FVal where
  | fin : ℤ → FVal
  | nan : FVal
  | inf : FVal
  | ninf : FVal
deriving DecidableEq

def FVal.isnan : FVal → Bool
  | .nan => true
  | _ => false

def FVal.isfinite : FVal → Bool
  | .fin _ => true
  | _ => false

def FVal.neg : FVal → FVal
  | .fin a => .fin (-a)
  | .nan => .nan
  | .inf => .ninf
  | .ninf => .inf

def FVal.add : FVal → FVal → FVal
  | .nan, _ => .nan
  | _, .nan => .nan
  | .inf, .ninf => .nan
  | .ninf, .inf => .nan
  | .inf, _ => .inf
  | _, .inf => .inf
  | .ninf, _ => .ninf
  | _, .ninf => .ninf
  | .fin a, .fin b => .fin (a + b)

def FVal.mul : FVal → FVal → FVal
  | .nan, _ => .nan
  | _, .nan => .nan
  | .inf, .inf => .inf
  | .inf, .ninf => .ninf
  | .ninf, .inf => .ninf
  | .ninf, .ninf => .inf
  | .inf, .fin b => if 0 < b then .inf else if b < 0 then .ninf else .nan
  | .fin a, .inf => if 0 < a then .inf else if a < 0 then .ninf else .nan
  | .ninf, .fin b => if 0 < b then .ninf else if b < 0 then .inf else .nan
  | .fin a, .ninf => if 0 < a then .ninf else if a < 0 then .inf else .nan
  | .fin a, .fin b => .fin (a * b)

def FVal.sub (a b : FVal) : FVal := a.add b.neg

/-- A 1-D numpy / torch array of floating-point values. -/
abbrev Arr := List FVal

/-- Elementwise subtraction, as in `Qs - Vs`. -/
def Arr.subA (a b : Arr) : Arr := List.zipWith FVal.sub a b

/-- `np.isnan(v).any()` — the fault check of `update_policy` (line 188). -/
def isnanAny (v : Arr) : Bool := v.any FVal.isnan

/-- `np.isfinite(v).all()` — finiteness of a whole parameter vector. -/
def allFinite (v : Arr) : Bool := v.all FVal.isfinite

/-! ## Policy parameter state

The policy keeps two flat parameter vectors: the current one (used for the
next forward pass) and the reference ("old") one, the KL/surrogate baseline. -/

structure PolicyParams where
  cur : Arr
  old : Arr
deriving DecidableEq

/-- Modelled from the spec: `Policy.setParameters(vector, updateCurrent,
updateReference)` — the `set_param_values(new_params, set_new=..., set_old=...)`
call of the policy object (the policy class is not part of the provided
sources). -/
def setParamValues (p : PolicyParams) (v : Arr) (set_new set_old : Bool) : PolicyParams :=
  { cur := if set_new then v else p.cur
    old := if set_old then v else p.old }

/-! ## Errors and events -/

/-- The Python exceptions the source file can raise.  `exception` is the bare
`Exception` of `train_step` carrying the message
`Must set include_iteration=True in train_step()`; `runtimeError` is the
`RuntimeError` of `update_policy` carrying the message
`policy has nan params`; `valueError` is the unpack failure raised when
`observations, actions, weights = self.process_replay()` receives a single
array of length other than three; `typeError` stands for the failure of the
downstream vectorized calls when a flat length-3 array is unpacked into three
scalars. -/
inductive PyErr where
  | exception : PyErr
  | valueError : PyErr
  | typeError : PyErr
  | runtimeError : PyErr
deriving DecidableEq

/-- Externally visible actions of one `train_step` call, in order. -/
inductive Event where
  | samplePaths : Event
  | computeReturns : Event
  | pushMany : Event
  | bellman : Event
  | subIterFlag : ℕ → Bool → Event
  | getSample : ℕ → Event
  | surrogate : Event
  | klDivergence : Event
  | setParams : Arr → Bool → Bool → Event
  | log : ℕ → Event
deriving DecidableEq

def Event.isLog : Event → Bool
  | .log _ => true
  | _ => false

def Event.isSetParams : Event → Bool
  | .setParams _ _ _ => true
  | _ => false

def Event.isFlag : Event → Bool
  | .subIterFlag _ _ => true
  | _ => false

/-! ## Trajectories, replay samples and the oracle -/

/-- One sampled trajectory (a `path` dictionary): per-step observations,
actions, timesteps and rewards, each flattened into one array. -/
structure Path where
  observations : Arr
  actions : Arr
  time : Arr
  rewards : Arr
deriving DecidableEq

/-- A replay-buffer sample: the `observations` and `time` columns that
`process_replay` reads from `self.baseline.buffer.get_sample(...)`. -/
structure Sample where
  observations : Arr
  time : Arr
deriving DecidableEq

/-- The 7-tuple `update_policy` returns:
`(alpha, n_step_size, t_gLL, t_FIM, surr_before, surr_after, kl_dist)`. -/
structure UpdateStats where
  alpha : FVal
  n_step_size : FVal
  t_gLL : FVal
  t_FIM : FVal
  surr_before : FVal
  surr_after : FVal
  kl_dist : FVal
deriving DecidableEq

/-- Everything the source file calls that lives outside it: the trajectory
sampler, return computation, the replay buffer and Q-function baseline
(external state of type `E`), the action sampling of the policy, and the numeric
routines inherited from the `NPG` base class (`flat_vpg`, the
CG/Fisher-vector-product natural gradient, the step-size computation,
`CPI_surrogate`, `kl_old_new`), plus the weight normalization of line 182,
whose exact real-valued formula is `normalizeWeights` in the second layer. -/
structure Oracle (E : Type) where
  samplePaths : PolicyParams → List Path
  computeReturns : List Path → List Path
  pushMany : E → List Path → E
  bellman : E → E × (FVal × FVal × FVal × FVal × FVal)
  predict : E → Arr → Arr → Arr → Arr
  avgValue : E → Arr → Arr → Arr
  getSample : E → ℕ → Sample
  getActionBatch : PolicyParams → Arr → Arr
  getActionPytorch : PolicyParams → Arr → Arr
  forward : E → Arr → Arr → Arr → Arr
  normalize : Arr → Arr
  surr : Arr → Arr → Arr → Arr → Arr → FVal
  klOldNew : Arr → Arr → Arr → Arr → FVal
  flatVpg : Arr → Arr → Arr → Arr → Arr
  naturalGrad : Arr → Arr → Arr → Arr → Arr
  stepSize : Arr → Arr → FVal × FVal
  tg : FVal
  tf : FVal
  summarize : List Path → List FVal
  writerLogs : List Path → List UpdateStats → List ℕ

/-- The constructor arguments of `NPGOffPolicy` that `train_step` and
`update_policy` read, plus whether a `summary_writer` was supplied. -/
structure TrainCfg where
  num_policy_updates : ℕ
  num_update_states : ℕ
  fit_on_policy : Bool
  fit_off_policy : Bool
  hasWriter : Bool
deriving DecidableEq

/-! ## The source functions (control-flow layer) -/

/-- `NPGOffPolicy.process_paths` (lines 234-244): concatenate the path
columns, query the baseline for `Q(s,a)` and the average value `V(s)`, and
return the triple `(observations, actions, Q - V)`. -/
def process_paths {E : Type} (O : Oracle E) (e : E) (paths : List Path) : Arr × Arr × Arr :=
  let observations := (paths.map Path.observations).flatten
  let actions := (paths.map Path.actions).flatten
  let times := (paths.map Path.time).flatten
  let Qs := O.predict e observations actions times
  let Vs := O.avgValue e observations times
  (observations, actions, Arr.subA Qs Vs)

/-- `NPGOffPolicy.process_replay` (lines 246-275): draw
`num_update_states` rows from the replay buffer, resample actions from the
current policy, and compute `Q - V`.  The first (numpy-on-cpu) pass of lines
252-262 is computed and then discarded by the source; the
`return observations, actions, weights` on line 260 is commented out, so the
function returns only the single weights array of line 275. -/
def process_replay {E : Type} (O : Oracle E) (e : E) (s : PolicyParams) (nus : ℕ) : Arr :=
  let samples := O.getSample e nus
  let _actions_cpu := O.getActionBatch s samples.observations
  let _Qs_cpu := O.predict e samples.observations _actions_cpu samples.time
  let _Vs_cpu := O.avgValue e samples.observations samples.time
  let observations := samples.observations
  let times := samples.time
  let actions := O.getActionPytorch s observations
  let Qs := O.forward e observations actions times
  let Vs := O.avgValue e observations times
  Arr.subA Qs Vs

/-- Python unpacking `observations, actions, weights = arr` of one 1-D array:
it raises `ValueError` unless the array has exactly three entries, and with
exactly three entries it binds the three scalar entries — not three arrays —
so the immediately following vectorized policy/baseline calls fail on the
scalar arguments; the model folds that failure into `typeError`.  (No theorem
below depends on the length-3 branch.) -/
def py_unpack3 (ws : Arr) : Except PyErr (Arr × Arr × Arr) :=
  match ws with
  | [_, _, _] => .error .typeError
  | _ => .error .valueError

/-- Lines 176-179 of `update_policy`: choose the advantage source.  With
`fit_on_policy` true the triple comes from `process_paths`; otherwise the
single array returned by `process_replay` is unpacked into three names. -/
def advantage_source {E : Type} (O : Oracle E) (nus : ℕ) (s : PolicyParams) (e : E)
    (paths : List Path) (fit_on_policy : Bool) :
    Except PyErr (Arr × Arr × Arr) × List Event :=
  if fit_on_policy then
    (.ok (process_paths O e paths), [])
  else
    (py_unpack3 (process_replay O e s nus), [.getSample nus])

/-- The 5-tuple `update_from_states_actions` returns:
`(alpha, n_step_size, t_gLL, t_FIM, new_params)`. -/
structure StepResult where
  alpha : FVal
  n_step_size : FVal
  t_gLL : FVal
  t_FIM : FVal
  new_params : Arr
deriving DecidableEq

/-- `new_params = curr_params + alpha * npg_grad` (line 229), elementwise. -/
def addScaled (curr : Arr) (alpha : FVal) (d : Arr) : Arr :=
  List.zipWith (fun c di => c.add (alpha.mul di)) curr d

/-- `NPGOffPolicy.update_from_states_actions` (lines 197-232), control-flow
layer: compute the vanilla gradient, the natural-gradient direction and the
step size (their numeric content comes through the oracle; the real-valued
formulas are proved about `update_from_states_actionsR` below), form
`new_params = curr_params + alpha * npg_grad`, and write it to the policy with
`set_new=True, set_old=False`. -/
def update_from_states_actions {E : Type} (O : Oracle E) (s : PolicyParams)
    (observations actions weights : Arr) : StepResult × PolicyParams × List Event :=
  let vpg_grad := O.flatVpg s.cur observations actions weights
  let npg_grad := O.naturalGrad s.cur observations actions vpg_grad
  let an := O.stepSize vpg_grad npg_grad
  let curr_params := s.cur
  let new_params := addScaled curr_params an.1 npg_grad
  (⟨an.1, an.2, O.tg, O.tf, new_params⟩,
   setParamValues s new_params true false,
   [.setParams new_params true false])

/-- `NPGOffPolicy.update_policy` (lines 175-195): pick the advantage source,
normalize the weights, evaluate the surrogate before the step, run
`update_from_states_actions`, raise `RuntimeError` if any new parameter is
NaN, otherwise evaluate the surrogate after the step and the KL divergence and
overwrite both the current and the reference parameters
(`set_new=True, set_old=True`).  The returned policy state is the state at
normal return or at the moment the exception is raised. -/
def update_policy {E : Type} (O : Oracle E) (nus : ℕ) (s : PolicyParams) (e : E)
    (paths : List Path) (fit_on_policy : Bool) :
    Except PyErr UpdateStats × PolicyParams × List Event :=
  match advantage_source O nus s e paths fit_on_policy with
  | (.error err, evs) => (.error err, s, evs)
  | (.ok (observations, actions, weights), evs) =>
    let weights := O.normalize weights
    let surr_before := O.surr s.cur s.old observations actions weights
    match update_from_states_actions O s observations actions weights with
    | (r, s1, evs1) =>
      if isnanAny r.new_params then
        (.error .runtimeError, s1, evs ++ [.surrogate] ++ evs1)
      else
        let surr_after := O.surr s1.cur s1.old observations actions weights
        let kl_dist := O.klOldNew s1.cur s1.old observations actions
        let s2 := setParamValues s1 r.new_params true true
        (.ok ⟨r.alpha, r.n_step_size, r.t_gLL, r.t_FIM, surr_before, surr_after, kl_dist⟩,
         s2,
         evs ++ [.surrogate] ++ evs1 ++ [.surrogate, .klDivergence, .setParams r.new_params true true])

/-- The sub-iteration loop of `train_step` (lines 86-101): each of the
`num_policy_updates` sub-iterations first runs one `bellman_update` on the
baseline and then calls `update_policy(paths, self.fit_on_policy and k == 0)`.
An exception from `update_policy` propagates, aborting the remaining
sub-iterations.  The `subIterFlag` event records the flag passed on each
sub-iteration. -/
def subIters {E : Type} (O : Oracle E) (fit_on : Bool) (nus : ℕ) (paths : List Path) :
    ℕ → ℕ → PolicyParams → E →
    Except PyErr (List UpdateStats) × PolicyParams × E × List Event
  | 0, _, s, e => (.ok [], s, e, [])
  | Nat.succ n, k, s, e =>
    let e1 := (O.bellman e).1
    let flag := fit_on && k == 0
    match update_policy O nus s e1 paths flag with
    | (.error err, s1, evs) =>
      (.error err, s1, e1, .bellman :: .subIterFlag k flag :: evs)
    | (.ok st, s1, evs) =>
      match subIters O fit_on nus paths n (k + 1) s1 e1 with
      | (.error err, s2, e2, evs2) =>
        (.error err, s2, e2, .bellman :: .subIterFlag k flag :: (evs ++ evs2))
      | (.ok sts, s2, e2, evs2) =>
        (.ok (st :: sts), s2, e2, .bellman :: .subIterFlag k flag :: (evs ++ evs2))

/-- `NPGOffPolicy.train_step` (lines 47-163): fail immediately when no
iteration index is supplied; otherwise sample trajectories under the current
policy, compute discounted returns, push everything to the replay buffer, run
the sub-iteration loop, compute the return summary, and — only when a
`summary_writer` is present — emit the metrics records.  Returns
`[mean_return, std_return, min_return, max_return]` on success. -/
def train_step {E : Type} (O : Oracle E) (cfg : TrainCfg) (s : PolicyParams) (e : E)
    (iteration : Option ℕ) :
    Except PyErr (List FVal) × PolicyParams × E × List Event :=
  match iteration with
  | none => (.error .exception, s, e, [])
  | some _ =>
    let paths := O.computeReturns (O.samplePaths s)
    let e1 := O.pushMany e paths
    match subIters O cfg.fit_on_policy cfg.num_update_states paths
        cfg.num_policy_updates 0 s e1 with
    | (.error err, s2, e2, evs) =>
      (.error err, s2, e2, .samplePaths :: .computeReturns :: .pushMany :: evs)
    | (.ok stats, s2, e2, evs) =>
      let summary := O.summarize paths
      let logs := if cfg.hasWriter then (O.writerLogs paths stats).map Event.log else []
      (.ok summary, s2, e2, (.samplePaths :: .computeReturns :: .pushMany :: evs) ++ logs)

/-! ## Concrete instances

A small family of fully computable oracles used to evaluate the model at
concrete inputs: one trajectory with a single step, a baseline predicting
`Q = 1` and `V = 0`, and a natural-gradient direction `d` chosen per test
(finite, infinite or NaN), so that the parameter update
`new_params = [0] + 1 * d = d`. -/

def Otest (d : Arr) : Oracle Unit where
  samplePaths _ := [⟨[.fin 0], [.fin 0], [.fin 0], [.fin 1]⟩]
  computeReturns ps := ps
  pushMany e _ := e
  bellman e := (e, (.fin 0, .fin 0, .fin 0, .fin 0, .fin 0))
  predict _ obs _ _ := obs.map (fun _ => .fin 1)
  avgValue _ obs _ := obs.map (fun _ => .fin 0)
  getSample _ n := ⟨List.replicate n (.fin 0), List.replicate n (.fin 0)⟩
  getActionBatch _ obs := obs
  getActionPytorch _ obs := obs
  forward _ obs _ _ := obs.map (fun _ => .fin 1)
  normalize w := w
  surr _ _ _ _ _ := .fin 0
  klOldNew _ _ _ _ := .fin 0
  flatVpg _ _ _ _ := [.fin 1]
  naturalGrad _ _ _ _ := d
  stepSize _ _ := (.fin 1, .fin 1)
  tg := .fin 0
  tf := .fin 0
  summarize _ := []
  writerLogs _ _ := [0]

def sTest : PolicyParams := ⟨[.fin 0], [.fin 0]⟩

def pathsTest : List Path := [⟨[.fin 0], [.fin 0], [.fin 0], [.fin 1]⟩]

/-- Two policy updates per call, replay samples of size 5, on-policy fitting
enabled, off-policy fitting as given, no summary writer. -/
def cfgTest (fit_off : Bool) : TrainCfg :=
  ⟨2, 5, true, fit_off, false⟩

/-! ## The real-valued numeric layer

Exact real-number models of the numeric code of `update_policy` (the weight
normalization of lines 181-182) and `update_from_states_actions` (lines
197-232).  Vectors are lists of reals; `np.mean`, `np.std` (population
standard deviation), `np.dot` and the elementwise vector operations are spelled
out; `Real.sqrt` stands for `np.sqrt`. -/

noncomputable section RealLayer

def dotR (a b : List ℝ) : ℝ := (List.zipWith (fun x y => x * y) a b).sum

def vaddR (a b : List ℝ) : List ℝ := List.zipWith (fun x y => x + y) a b

def vsubR (a b : List ℝ) : List ℝ := List.zipWith (fun x y => x - y) a b

def smulR (c : ℝ) (a : List ℝ) : List ℝ := a.map (fun x => c * x)

/-- `np.mean` of a 1-D array. -/
def meanR (w : List ℝ) : ℝ := w.sum / (w.length : ℝ)

/-- `np.std` of a 1-D array: the square root of the mean squared deviation. -/
def stdR (w : List ℝ) : ℝ := Real.sqrt (meanR (w.map (fun x => (x - meanR w) ^ 2)))

/-- Line 182 of `update_policy`:
`weights = (weights - np.mean(weights)) / (np.std(weights) + 1e-6)`. -/
def normalizeWeights (w : List ℝ) : List ℝ :=
  w.map (fun x => (x - meanR w) / (stdR w + 1 / 10 ^ 6))

/-- One conjugate-gradient iteration on the state `(x, r, p)`. -/
def cgIter (Avp : List ℝ → List ℝ) :
    ℕ → List ℝ × List ℝ × List ℝ → List ℝ × List ℝ × List ℝ
  | 0, st => st
  | Nat.succ n, (x, r, p) =>
    let Ap := Avp p
    let rdr := dotR r r
    let a := rdr / dotR p Ap
    let x' := vaddR x (smulR a p)
    let r' := vsubR r (smulR a Ap)
    let beta := dotR r' r' / rdr
    let p' := vaddR r' (smulR beta p)
    cgIter Avp n (x', r', p')

/-- Modelled from the spec: `mjrl.utils.cg_solve` (imported by the trainer on
line 5 but its file is not among the provided sources) — conjugate gradient on
the vector-product oracle `Avp` for the right-hand side `b`, warm-started at
`x_0` and run for a fixed budget of `cg_iters` iterations with no
convergence-based early exit. -/
def cg_solve (Avp : List ℝ → List ℝ) (b x_0 : List ℝ) (cg_iters : ℕ) : List ℝ :=
  let r0 := vsubR b (Avp x_0)
  (cgIter Avp cg_iters (x_0, r0, r0)).1

/-- The attributes of the engine that `update_from_states_actions` reads:
`self.alpha` (a fixed step scale, or `None` for trust-region mode),
`self.n_step_size` (the trust-region target), and
`self.FIM_invert_args = {iters, damping}`.  They are set by the `NPG` base
class constructor, which is outside the provided sources; nothing there
constrains the sign of a caller-supplied `alpha`. -/
structure RCfg where
  alpha : Option ℝ
  n_step_size : ℝ
  damping : ℝ
  cg_iters : ℕ

structure RPolicy where
  cur : List ℝ
  old : List ℝ

/-- Modelled from the spec: `Policy.setParameters(vector, updateCurrent,
updateReference)`, real-valued layer. -/
def set_param_valuesR (p : RPolicy) (v : List ℝ) (set_new set_old : Bool) : RPolicy :=
  ⟨if set_new then v else p.cur, if set_old then v else p.old⟩

/-- The differentiable externals of the `NPG` base class used by
`update_from_states_actions`: `flat_vpg` (the vanilla policy gradient over
the batch) and `build_Hvp_eval` (the damped Fisher-vector-product closure). -/
structure ROracle (Obs Act : Type) where
  flat_vpg : Obs → Act → List ℝ → List ℝ
  build_Hvp : Obs → Act → ℝ → List ℝ → List ℝ

/-- `NPGOffPolicy.update_from_states_actions` (lines 197-232), real-valued
layer: `vpg_grad = flat_vpg(...)`;
`npg_grad = cg_solve(hvp, vpg_grad, x_0=vpg_grad.copy(), cg_iters=iters)` with
the damped Fisher-vector product; then either the fixed step scale
(`alpha` given, `n_step_size = alpha^2 * (g . d)`) or the trust-region scale
(`alpha = sqrt(|n_step_size / (g . d + 1e-20)|)`); finally
`new_params = curr_params + alpha * npg_grad`, written to the policy with
`set_new=True, set_old=False`.  The returned triple is
`(alpha, n_step_size, new_params)`. -/
def update_from_states_actionsR {Obs Act : Type} (cfg : RCfg) (O : ROracle Obs Act)
    (s : RPolicy) (observations : Obs) (actions : Act) (weights : List ℝ) :
    (ℝ × ℝ × List ℝ) × RPolicy :=
  let vpg_grad := O.flat_vpg observations actions weights
  let hvp := O.build_Hvp observations actions cfg.damping
  let npg_grad := cg_solve hvp vpg_grad vpg_grad cfg.cg_iters
  let an : ℝ × ℝ :=
    match cfg.alpha with
    | some a => (a, a ^ 2 * dotR vpg_grad npg_grad)
    | none =>
      (Real.sqrt |cfg.n_step_size / (dotR vpg_grad npg_grad + 1 / 10 ^ 20)|,
       cfg.n_step_size)
  let curr_params := s.cur
  let new_params := vaddR curr_params (smulR an.1 npg_grad)
  ((an.1, an.2, new_params), set_param_valuesR s new_params true false)

/-- A one-parameter engine over trivial observation/action types: the vanilla
gradient is the constant vector `[1]` and the curvature oracle is the
identity. -/
def OR1 : ROracle Unit Unit := ⟨fun _ _ _ => [1], fun _ _ _ v => v⟩

def sR : RPolicy := ⟨[0], [0]⟩

/-- Fixed-scale mode with a negative caller-supplied scale. -/
def cfgNeg : RCfg := ⟨some (-1), 1, 1, 0⟩

/-- Fixed-scale mode with scale 3. -/
def cfgFix : RCfg := ⟨some 3, 0, 1, 0⟩

/-- Trust-region mode with target step size 4. -/
def cfgTR : RCfg := ⟨none, 4, 1, 0⟩

end RealLayer

/-! ## Helper lemmas on the real-valued layer -/

theorem stdR_pair (a b : ℝ) : stdR [a, b] = |b - a| / 2 := by
  have h : meanR ([a, b].map (fun x => (x - meanR [a, b]) ^ 2)) = ((b - a) / 2) ^ 2 := by
    simp only [meanR, List.map_cons, List.map_nil, List.sum_cons, List.sum_nil,
      List.length_cons, List.length_nil]
    push_cast
    ring
  unfold stdR
  rw [h, Real.sqrt_sq_eq_abs, abs_div, abs_two]

theorem sum_map_submul (w : List ℝ) (m c : ℝ) :
    (w.map (fun x => (x - m) * c)).sum = (w.sum - w.length * m) * c := by
  induction w with
  | nil => simp
  | cons a t ih =>
    simp only [List.map_cons, List.sum_cons, ih, List.length_cons]
    push_cast
    ring

theorem normalizeWeights_eq_map (w : List ℝ) :
    normalizeWeights w = w.map (fun x => (x - meanR w) * (stdR w + 1 / 10 ^ 6)⁻¹) := by
  simp [normalizeWeights, div_eq_mul_inv]

theorem length_normalizeWeights (w : List ℝ) :
    (normalizeWeights w).length = w.length := by
  simp [normalizeWeights]

theorem meanR_normalizeWeights (w : List ℝ) (h : w ≠ []) :
    meanR (normalizeWeights w) = 0 := by
  have hl : (w.length : ℝ) ≠ 0 := by
    have h0 : 0 < w.length := List.length_pos.mpr h
    exact_mod_cast h0.ne'
  have hz : w.sum - (w.length : ℝ) * meanR w = 0 := by
    unfold meanR
    field_simp
  unfold meanR
  rw [normalizeWeights_eq_map, sum_map_submul, List.length_map, hz, zero_mul, zero_div]

theorem meanR_nonneg_of (l : List ℝ) (h : ∀ x ∈ l, 0 ≤ x) : 0 ≤ meanR l := by
  unfold meanR
  exact div_nonneg (List.sum_nonneg h) (by positivity)

theorem meanR_map_sq_nonneg (w : List ℝ) (m : ℝ) :
    0 ≤ meanR (w.map (fun x => (x - m) ^ 2)) := by
  apply meanR_nonneg_of
  intro y hy
  obtain ⟨x, hx, rfl⟩ := List.mem_map.mp hy
  positivity

theorem stdR_nonneg (w : List ℝ) : 0 ≤ stdR w := Real.sqrt_nonneg _

theorem stdR_normalizeWeights (w : List ℝ) (h : w ≠ []) :
    stdR (normalizeWeights w) = stdR w / (stdR w + 1 / 10 ^ 6) := by
  have hc : (0 : ℝ) < stdR w + 1 / 10 ^ 6 := by
    have hs := stdR_nonneg w
    positivity
  have hm0 := meanR_normalizeWeights w h
  have hmap : (normalizeWeights w).map (fun y => (y - meanR (normalizeWeights w)) ^ 2)
      = w.map (fun x => (x - meanR w) ^ 2 * ((stdR w + 1 / 10 ^ 6)⁻¹) ^ 2) := by
    rw [hm0, normalizeWeights_eq_map, List.map_map]
    congr 1
    funext x
    simp only [Function.comp_apply, sub_zero]
    ring
  have hmean : meanR (w.map (fun x => (x - meanR w) ^ 2 * ((stdR w + 1 / 10 ^ 6)⁻¹) ^ 2))
      = meanR (w.map (fun x => (x - meanR w) ^ 2)) * ((stdR w + 1 / 10 ^ 6)⁻¹) ^ 2 := by
    unfold meanR
    rw [List.sum_map_mul_right]
    simp only [List.length_map]
    exact mul_div_right_comm _ _ _
  unfold stdR
  rw [hmap, hmean,
    Real.sqrt_mul (meanR_map_sq_nonneg w (meanR w)),
    Real.sqrt_sq (by positivity)]
  rw [div_eq_mul_inv (Real.sqrt (meanR (w.map (fun x => (x - meanR w) ^ 2))))]
  rfl

/-! ## Helper lemmas on the control-flow layer -/

/-- Occurrences of an event in a trace. -/
def countEv (x : Event) : List Event → ℕ
  | [] => 0
  | y :: l => (if y = x then 1 else 0) + countEv x l

theorem countEv_append (x : Event) (l1 l2 : List Event) :
    countEv x (l1 ++ l2) = countEv x l1 + countEv x l2 := by
  induction l1 with
  | nil => simp [countEv]
  | cons y t ih => simp [countEv, ih]; ring

/-- The advantage-source block emits either no event (on-policy) or exactly
one buffer draw (replay). -/
theorem advantage_source_events {E : Type} (O : Oracle E) (nus : ℕ) (s : PolicyParams)
    (e : E) (paths : List Path) (b : Bool) :
    (advantage_source O nus s e paths b).2 = [] ∨
    (advantage_source O nus s e paths b).2 = [.getSample nus] := by
  cases b
  · right; rfl
  · left; rfl

/-- `update_policy` never emits a sub-iteration marker; only the loop in
`train_step` does. -/
theorem update_policy_no_flag {E : Type} (O : Oracle E) (nus : ℕ) (s : PolicyParams)
    (e : E) (paths : List Path) (b : Bool) (j : ℕ) (f : Bool) :
    Event.subIterFlag j f ∉ (update_policy O nus s e paths b).2.2 := by
  have hevs := advantage_source_events O nus s e paths b
  unfold update_policy
  rcases hs : advantage_source O nus s e paths b with ⟨res, evsA⟩
  rw [hs] at hevs
  simp only at hevs
  rcases res with errA | ⟨obs, act, w⟩
  · rcases hevs with h | h <;> simp [h]
  · simp only [update_from_states_actions]
    split
    · rcases hevs with h | h <;> simp [h]
    · rcases hevs with h | h <;> simp [h]

/-- In the sub-iteration loop every recorded advantage-source flag obeys
`flag = fit_on_policy && (k == 0)`. -/
theorem subIters_flag {E : Type} (O : Oracle E) (fit_on : Bool) (nus : ℕ)
    (paths : List Path) :
    ∀ (n k : ℕ) (s : PolicyParams) (e : E) (j : ℕ) (f : Bool),
      Event.subIterFlag j f ∈ (subIters O fit_on nus paths n k s e).2.2.2 →
      f = (fit_on && j == 0) := by
  intro n
  induction n with
  | zero =>
    intro k s e j f h
    simp [subIters] at h
  | succ n ih =>
    intro k s e j f h
    rw [subIters] at h
    rcases hup : update_policy O nus s (O.bellman e).1 paths (fit_on && k == 0)
      with ⟨res, s1, evs⟩
    rw [hup] at h
    rcases res with err | st
    · simp only [List.mem_cons] at h
      rcases h with h | h | h
      · exact absurd h (by simp)
      · obtain ⟨rfl, rfl⟩ : j = k ∧ f = (fit_on && k == 0) := by
          injection h with h1 h2
          exact ⟨h1, h2⟩
        rfl
      · exact absurd h (by
          have := update_policy_no_flag O nus s (O.bellman e).1 paths (fit_on && k == 0) j f
          rw [hup] at this
          simpa using this)
    · simp only at h
      rcases hrec : subIters O fit_on nus paths n (k + 1) s1 (O.bellman e).1
        with ⟨res2, s2, e2, evs2⟩
      rw [hrec] at h
      have hmem : Event.subIterFlag j f ∈
          Event.bellman :: Event.subIterFlag k (fit_on && k == 0) :: (evs ++ evs2) := by
        rcases res2 with err2 | sts <;> simpa using h
      simp only [List.mem_cons, List.mem_append] at hmem
      rcases hmem with h' | h' | h' | h'
      · exact absurd h' (by simp)
      · obtain ⟨rfl, rfl⟩ : j = k ∧ f = (fit_on && k == 0) := by
          injection h' with h1 h2
          exact ⟨h1, h2⟩
        rfl
      · exact absurd h' (by
          have := update_policy_no_flag O nus s (O.bellman e).1 paths (fit_on && k == 0) j f
          rw [hup] at this
          simpa using this)
      · have := ih (k + 1) s1 (O.bellman e).1 j f
        rw [hrec] at this
        exact this (by simpa using h')

/-- Metrics records are the only `log` events, and filtering them away
removes a `map Event.log` block entirely. -/
theorem filter_notLog_map_log (l : List ℕ) :
    (l.map Event.log).filter (fun ev => !ev.isLog) = [] := by
  induction l with
  | nil => rfl
  | cons a t ih => simp [List.filter, Event.isLog, ih]

/-! ## Claim theorems -/

/-- Claim C6, amended: line 182 normalizes the weights as
`w' = (w - mean w) / (std w + 1e-6)`; for every nonempty weight vector the
normalized weights have mean exactly 0 and standard deviation exactly
`std w / (std w + 1e-6)`, which is within 1/100 of 1 whenever
`std w ≥ 1e-4` — but not for arbitrary non-constant vectors (see the
counterexample). -/
theorem weight_normalization (w : List ℝ) (h : w ≠ []) :
    meanR (normalizeWeights w) = 0 ∧
    stdR (normalizeWeights w) = stdR w / (stdR w + 1 / 10 ^ 6) ∧
    (1 / 10 ^ 4 ≤ stdR w → |stdR (normalizeWeights w) - 1| ≤ 1 / 100) := by
  refine ⟨meanR_normalizeWeights w h, stdR_normalizeWeights w h, ?_⟩
  intro hs
  have hs0 := stdR_nonneg w
  rw [stdR_normalizeWeights w h]
  have hc : (0 : ℝ) < stdR w + 1 / 10 ^ 6 := by positivity
  have h1 : stdR w / (stdR w + 1 / 10 ^ 6) ≤ 1 := by
    rw [div_le_one hc]
    linarith
  rw [abs_sub_comm, abs_of_nonneg (by linarith)]
  have h3 : 1 - stdR w / (stdR w + 1 / 10 ^ 6)
      = (1 / 10 ^ 6) / (stdR w + 1 / 10 ^ 6) := by
    field_simp
  rw [h3, div_le_iff₀ hc]
  nlinarith

/-- Claim C6, counterexample to the claim as stated: the non-constant weight
vector `[0, 2e-9]` (standard deviation `1e-9`) normalizes to a vector of
standard deviation `1/1001 < 1/100`, nowhere near 1: for tiny-spread batches
the additive `1e-6` dominates and the normalized spread collapses instead of
becoming unit. -/
theorem weight_normalization_cex :
    (0 : ℝ) ≠ 2 / 10 ^ 9 ∧
    stdR (normalizeWeights [0, 2 / 10 ^ 9]) < 1 / 100 := by
  constructor
  · norm_num
  · rw [stdR_normalizeWeights _ (by simp)]
    rw [show stdR [(0 : ℝ), 2 / 10 ^ 9] = 1 / 10 ^ 9 from by
      rw [stdR_pair, show |(2 / 10 ^ 9 : ℝ) - 0| = 2 / 10 ^ 9 - 0 from abs_of_nonneg (by norm_num)]
      norm_num]
    rw [div_lt_iff₀ (by norm_num)]
    norm_num

/-- Witness for `weight_normalization` at the concrete vector `[0, 2]`. -/
theorem weight_normalization_witness :
    ([0, 2] : List ℝ) ≠ [] ∧
    (1 / 10 ^ 4 : ℝ) ≤ stdR [0, 2] ∧
    meanR (normalizeWeights [0, 2]) = 0 ∧
    |stdR (normalizeWeights [0, 2]) - 1| ≤ 1 / 100 := by
  have hne : ([0, 2] : List ℝ) ≠ [] := by simp
  have hs : stdR [(0 : ℝ), 2] = 1 := by
    rw [stdR_pair, show |(2 : ℝ) - 0| = 2 - 0 from abs_of_nonneg (by norm_num)]
    norm_num
  exact ⟨hne, by rw [hs]; norm_num, (weight_normalization [0, 2] hne).1,
    (weight_normalization [0, 2] hne).2.2 (by rw [hs]; norm_num)⟩

/-- Claim C5, amended: in fixed-scale mode (`self.alpha` supplied) the
reported step size is `alpha^2 * (g . d)` with `alpha` the caller-supplied
value as is (its sign is not constrained anywhere); in trust-region mode
(`self.alpha = None`) the scale is `sqrt(|n_step_size / (g . d + 1e-20)|)`,
which is non-negative, and the reported step size is the target
`n_step_size`. -/
theorem step_size_modes {Obs Act : Type} (cfg : RCfg) (O : ROracle Obs Act) (s : RPolicy)
    (observations : Obs) (actions : Act) (weights : List ℝ) :
    (∀ a : ℝ, cfg.alpha = some a →
      (update_from_states_actionsR cfg O s observations actions weights).1.1 = a ∧
      (update_from_states_actionsR cfg O s observations actions weights).1.2.1
        = a ^ 2 * dotR (O.flat_vpg observations actions weights)
            (cg_solve (O.build_Hvp observations actions cfg.damping)
              (O.flat_vpg observations actions weights)
              (O.flat_vpg observations actions weights) cfg.cg_iters)) ∧
    (cfg.alpha = none →
      (update_from_states_actionsR cfg O s observations actions weights).1.1
        = Real.sqrt |cfg.n_step_size /
            (dotR (O.flat_vpg observations actions weights)
              (cg_solve (O.build_Hvp observations actions cfg.damping)
                (O.flat_vpg observations actions weights)
                (O.flat_vpg observations actions weights) cfg.cg_iters) + 1 / 10 ^ 20)| ∧
      0 ≤ (update_from_states_actionsR cfg O s observations actions weights).1.1 ∧
      (update_from_states_actionsR cfg O s observations actions weights).1.2.1
        = cfg.n_step_size) := by
  constructor
  · intro a ha
    constructor <;> simp [update_from_states_actionsR, ha]
  · intro ha
    refine ⟨by simp [update_from_states_actionsR, ha], ?_, by simp [update_from_states_actionsR, ha]⟩
    simp only [update_from_states_actionsR, ha]
    exact Real.sqrt_nonneg _

/-- Claim C5, counterexample to "alpha is non-negative in both modes": with a
caller-supplied fixed scale of `-1` the engine uses `alpha = -1 < 0`
unchanged; nothing in `update_from_states_actions` constrains the sign in
fixed-scale mode. -/
theorem step_size_alpha_negative_cex :
    (update_from_states_actionsR cfgNeg OR1 sR () () [1]).1.1 < 0 := by
  simp [update_from_states_actionsR, cfgNeg]

/-- Witness for `step_size_modes`: both modes evaluated at the one-parameter
engine `OR1`. -/
theorem step_size_modes_witness :
    cfgFix.alpha = some 3 ∧
    (update_from_states_actionsR cfgFix OR1 sR () () [1]).1.1 = 3 ∧
    cfgTR.alpha = none ∧
    0 ≤ (update_from_states_actionsR cfgTR OR1 sR () () [1]).1.1 := by
  exact ⟨rfl, ((step_size_modes cfgFix OR1 sR () () [1]).1 3 rfl).1, rfl,
    ((step_size_modes cfgTR OR1 sR () () [1]).2 rfl).2.1⟩

/-- Claim C7: the natural-gradient direction is
`cg_solve(hvp, g, x_0 = g, cg_iters)` — conjugate gradient on the damped
Fisher-vector-product oracle, warm-started at the vanilla gradient `g` and
run for the configured fixed budget — and the vector written back to the
policy (current parameters only; the reference is untouched here) is
`curr_params + alpha * npg_grad`. -/
theorem natural_gradient_update {Obs Act : Type} (cfg : RCfg) (O : ROracle Obs Act)
    (s : RPolicy) (observations : Obs) (actions : Act) (weights : List ℝ) :
    (update_from_states_actionsR cfg O s observations actions weights).1.2.2
      = vaddR s.cur
          (smulR (update_from_states_actionsR cfg O s observations actions weights).1.1
            (cg_solve (O.build_Hvp observations actions cfg.damping)
              (O.flat_vpg observations actions weights)
              (O.flat_vpg observations actions weights) cfg.cg_iters)) ∧
    (update_from_states_actionsR cfg O s observations actions weights).2
      = set_param_valuesR s
          (update_from_states_actionsR cfg O s observations actions weights).1.2.2
          true false ∧
    (update_from_states_actionsR cfg O s observations actions weights).2.cur
      = (update_from_states_actionsR cfg O s observations actions weights).1.2.2 ∧
    (update_from_states_actionsR cfg O s observations actions weights).2.old = s.old :=
  ⟨rfl, rfl, rfl, rfl⟩

/-- Claim C8: `train_step` raises immediately when the iteration index is
omitted: the result is the bare `Exception`, the policy and external state are
returned unchanged, and the event trace is empty — nothing was sampled, no
returns were computed, and no state was mutated first. -/
theorem train_step_missing_iteration {E : Type} (O : Oracle E) (cfg : TrainCfg)
    (s : PolicyParams) (e : E) :
    train_step O cfg s e none = (.error .exception, s, e, []) := rfl

/-- Claim C9: the metrics sink never influences control flow or results — two
`train_step` runs identical except for the presence of a `summary_writer`
return the same summary, the same final policy parameters and external state,
and the same trace of non-logging events. -/
theorem metrics_sink_no_influence {E : Type} (O : Oracle E) (cfg : TrainCfg)
    (s : PolicyParams) (e : E) (iteration : Option ℕ) :
    (train_step O { cfg with hasWriter := true } s e iteration).1
      = (train_step O { cfg with hasWriter := false } s e iteration).1 ∧
    (train_step O { cfg with hasWriter := true } s e iteration).2.1
      = (train_step O { cfg with hasWriter := false } s e iteration).2.1 ∧
    (train_step O { cfg with hasWriter := true } s e iteration).2.2.1
      = (train_step O { cfg with hasWriter := false } s e iteration).2.2.1 ∧
    (train_step O { cfg with hasWriter := true } s e iteration).2.2.2.filter
        (fun ev => !ev.isLog)
      = (train_step O { cfg with hasWriter := false } s e iteration).2.2.2.filter
        (fun ev => !ev.isLog) := by
  cases iteration with
  | none => exact ⟨rfl, rfl, rfl, rfl⟩
  | some i =>
    simp only [train_step]
    rcases hsub : subIters O cfg.fit_on_policy cfg.num_update_states
        (O.computeReturns (O.samplePaths s)) cfg.num_policy_updates 0 s
        (O.pushMany e (O.computeReturns (O.samplePaths s))) with ⟨res, s2, e2, evs⟩
    rcases res with err | stats
    · exact ⟨rfl, rfl, rfl, rfl⟩
    · refine ⟨rfl, rfl, rfl, ?_⟩
      simp [List.filter_cons, List.filter_append, filter_notLog_map_log, Event.isLog]

/-- Claim C1 (evaluating the code at the failing input): with a replay sample
of size 5 — any size other than 3 — `process_replay` returns the single
weights array (5 entries, not a triple), and the unpacking
`observations, actions, weights = self.process_replay()` on line 179 makes
`update_policy` with `fit_on_policy=False` raise `ValueError` after drawing
the buffer sample, before any policy computation. -/
theorem process_replay_returns_single_array :
    (process_replay (Otest [.fin 1]) () sTest 5).length = 5 ∧
    update_policy (Otest [.fin 1]) 5 sTest () pathsTest false
      = (.error .valueError, sTest, [.getSample 5]) :=
  ⟨by decide, by decide⟩

/-- Claim C2, amended: the fault check of `update_policy` (line 188) tests
`np.isnan` only.  Whenever the computed parameter vector contains a NaN entry
the update raises the `RuntimeError` (message `policy has nan params`), and the exception
propagates through the sub-iteration loop and out of `train_step`, halting
training; an infinite non-NaN entry, however, is not detected (see the
counterexample). -/
theorem nan_check_raises {E : Type} (O : Oracle E) (nus : ℕ) (paths : List Path) :
    (∀ (s : PolicyParams) (e : E) (b : Bool) (obs act w : Arr) (evs : List Event),
      advantage_source O nus s e paths b = (.ok (obs, act, w), evs) →
      isnanAny (update_from_states_actions O s obs act (O.normalize w)).1.new_params = true →
      (update_policy O nus s e paths b).1 = .error .runtimeError) ∧
    (∀ (fit_on : Bool) (n k : ℕ) (s : PolicyParams) (e : E) (err : PyErr)
        (s1 : PolicyParams) (evs : List Event),
      update_policy O nus s (O.bellman e).1 paths (fit_on && k == 0) = (.error err, s1, evs) →
      (subIters O fit_on nus paths (n + 1) k s e).1 = .error err) ∧
    (∀ (cfg : TrainCfg) (s : PolicyParams) (e : E) (i : ℕ) (err : PyErr)
        (s2 : PolicyParams) (e2 : E) (evs : List Event),
      subIters O cfg.fit_on_policy cfg.num_update_states
          (O.computeReturns (O.samplePaths s)) cfg.num_policy_updates 0 s
          (O.pushMany e (O.computeReturns (O.samplePaths s))) = (.error err, s2, e2, evs) →
      (train_step O cfg s e (some i)).1 = .error err) := by
  refine ⟨?_, ?_, ?_⟩
  · intro s e b obs act w evs hs hn
    unfold update_policy
    rw [hs]
    dsimp only
    rcases hu : update_from_states_actions O s obs act (O.normalize w) with ⟨r, s1, evs1⟩
    rw [hu] at hn
    dsimp only at hn
    simp [hn]
  · intro fit_on n k s e err s1 evs hup
    simp only [subIters]
    rw [hup]
  · intro cfg s e i err s2 e2 evs hsub
    simp only [train_step]
    rw [hsub]

/-- Claim C2, counterexample: an update whose new parameter vector is `[+inf]`
— non-finite but NaN-free — passes the `np.isnan` check, is silently applied
to both the current and the reference parameters, and `update_policy` returns
normally; no error is raised for infinite entries. -/
theorem inf_params_pass_check :
    allFinite ((update_policy (Otest [.inf]) 5 sTest () pathsTest true).2.1.cur) = false ∧
    (update_policy (Otest [.inf]) 5 sTest () pathsTest true).2.1.cur = [.inf] ∧
    (update_policy (Otest [.inf]) 5 sTest () pathsTest true).2.1.old = [.inf] ∧
    (update_policy (Otest [.inf]) 5 sTest () pathsTest true).1
      = .ok ⟨.fin 1, .fin 1, .fin 0, .fin 0, .fin 0, .fin 0, .fin 0⟩ :=
  ⟨by decide, by decide, by decide, by decide⟩

/-- Witness for `nan_check_raises`: a natural-gradient direction of `[nan]`
makes the new parameters of the first sub-iteration `[nan]`; the update, the loop
and the whole `train_step` call all fail with the `RuntimeError`. -/
theorem nan_check_raises_witness :
    advantage_source (Otest [.nan]) 5 sTest () pathsTest true
      = (.ok ([.fin 0], [.fin 0], [.fin 1]), []) ∧
    isnanAny (update_from_states_actions (Otest [.nan]) sTest [.fin 0] [.fin 0]
        ((Otest [.nan]).normalize [.fin 1])).1.new_params = true ∧
    (update_policy (Otest [.nan]) 5 sTest () pathsTest true).1 = .error .runtimeError ∧
    (subIters (Otest [.nan]) true 5 pathsTest 1 0 sTest ()).1 = .error .runtimeError ∧
    (train_step (Otest [.nan]) (cfgTest true) sTest () (some 1)).1 = .error .runtimeError := by
  refine ⟨by decide, by decide, ?_, ?_, ?_⟩
  · exact (nan_check_raises (Otest [.nan]) 5 pathsTest).1 sTest () true
      [.fin 0] [.fin 0] [.fin 1] [] (by decide) (by decide)
  · exact (nan_check_raises (Otest [.nan]) 5 pathsTest).2.1 true 0 0 sTest () .runtimeError
      ⟨[.nan], [.fin 0]⟩ [.surrogate, .setParams [.nan] true false] (by decide)
  · exact (nan_check_raises (Otest [.nan]) 5 pathsTest).2.2 (cfgTest true) sTest () 1
      .runtimeError ⟨[.nan], [.fin 0]⟩ ()
      [.bellman, .subIterFlag 0 true, .surrogate, .setParams [.nan] true false] (by decide)

/-- Claim C10: when the computed parameter vector contains NaN, at the moment
the `RuntimeError` is raised the current parameters already hold the NaN
vector (written with `set_new=True, set_old=False` before the check) while the
reference parameters still hold their pre-step values; the failed update is
not rolled back, and neither `surr_after` nor the KL divergence is ever
computed (the trace holds exactly the one pre-step surrogate evaluation, no
KL evaluation, and no `set_old=True` write). -/
theorem nan_state_at_raise {E : Type} (O : Oracle E) (nus : ℕ) (s : PolicyParams)
    (e : E) (paths : List Path) (b : Bool) (obs act w : Arr) (evs : List Event) :
    advantage_source O nus s e paths b = (.ok (obs, act, w), evs) →
    isnanAny (update_from_states_actions O s obs act (O.normalize w)).1.new_params = true →
    update_policy O nus s e paths b
      = (.error .runtimeError,
         (update_from_states_actions O s obs act (O.normalize w)).2.1,
         evs ++ [.surrogate] ++ (update_from_states_actions O s obs act (O.normalize w)).2.2) ∧
    (update_from_states_actions O s obs act (O.normalize w)).2.1.cur
      = (update_from_states_actions O s obs act (O.normalize w)).1.new_params ∧
    (update_from_states_actions O s obs act (O.normalize w)).2.1.old = s.old ∧
    countEv .surrogate (update_policy O nus s e paths b).2.2 = 1 ∧
    countEv .klDivergence (update_policy O nus s e paths b).2.2 = 0 ∧
    countEv (.setParams (update_from_states_actions O s obs act (O.normalize w)).1.new_params
        true true) (update_policy O nus s e paths b).2.2 = 0 := by
  intro hs hn
  have hevs := advantage_source_events O nus s e paths b
  rw [hs] at hevs
  simp only at hevs
  have hmain : update_policy O nus s e paths b
      = (.error .runtimeError,
         (update_from_states_actions O s obs act (O.normalize w)).2.1,
         evs ++ [.surrogate] ++ (update_from_states_actions O s obs act (O.normalize w)).2.2) := by
    unfold update_policy
    rw [hs]
    dsimp only
    rcases hu : update_from_states_actions O s obs act (O.normalize w) with ⟨r, s1, evs1⟩
    rw [hu] at hn
    dsimp only at hn
    simp [hn]
  refine ⟨hmain, rfl, rfl, ?_, ?_, ?_⟩ <;>
  · rw [hmain]
    dsimp only
    simp only [update_from_states_actions]
    rcases hevs with h | h <;>
    · subst h
      simp [countEv, countEv_append]

/-- Witness for `nan_state_at_raise` at the `[nan]`-direction engine. -/
theorem nan_state_at_raise_witness :
    (update_policy (Otest [.nan]) 5 sTest () pathsTest true).2.1.cur = [.nan] ∧
    (update_policy (Otest [.nan]) 5 sTest () pathsTest true).2.1.old = sTest.old ∧
    countEv .surrogate (update_policy (Otest [.nan]) 5 sTest () pathsTest true).2.2 = 1 ∧
    countEv .klDivergence (update_policy (Otest [.nan]) 5 sTest () pathsTest true).2.2 = 0 := by
  have h := nan_state_at_raise (Otest [.nan]) 5 sTest () pathsTest true
    [.fin 0] [.fin 0] [.fin 1] [] (by decide) (by decide)
  refine ⟨?_, ?_, h.2.2.2.1, h.2.2.2.2.1⟩
  · rw [h.1]
    exact h.2.1.trans (by decide)
  · rw [h.1]
    exact h.2.2.1

/-- Claim C3, amended: each of the `num_policy_updates` sub-iterations uses
the on-policy source exactly when `fit_on_policy` is enabled and it is the
first sub-iteration (`k == 0`); otherwise it always draws a replay-buffer
sample — `fit_off_policy` is stored by the constructor but never consulted,
so the run is identical for any value of it and replay is used even when it
is disabled. -/
theorem advantage_source_selection {E : Type} (O : Oracle E) (cfg : TrainCfg)
    (s : PolicyParams) (e : E) (iteration : Option ℕ) (nus : ℕ) (s' : PolicyParams)
    (e' : E) (paths : List Path) :
    (∀ b : Bool, train_step O { cfg with fit_off_policy := b } s e iteration
        = train_step O cfg s e iteration) ∧
    (∀ (j : ℕ) (f : Bool),
        Event.subIterFlag j f ∈ (train_step O cfg s e iteration).2.2.2 →
        f = (cfg.fit_on_policy && j == 0)) ∧
    Event.getSample nus ∈ (update_policy O nus s' e' paths false).2.2 := by
  refine ⟨?_, ?_, ?_⟩
  · intro b
    cases iteration <;> rfl
  · intro j f hmem
    cases iteration with
    | none => simp [train_step] at hmem
    | some i =>
      simp only [train_step] at hmem
      rcases hsub : subIters O cfg.fit_on_policy cfg.num_update_states
          (O.computeReturns (O.samplePaths s)) cfg.num_policy_updates 0 s
          (O.pushMany e (O.computeReturns (O.samplePaths s))) with ⟨res, s2, e2, evs⟩
      rw [hsub] at hmem
      have hflag : Event.subIterFlag j f ∈ evs → f = (cfg.fit_on_policy && j == 0) := by
        intro hin
        have := subIters_flag O cfg.fit_on_policy cfg.num_update_states
          (O.computeReturns (O.samplePaths s)) cfg.num_policy_updates 0 s
          (O.pushMany e (O.computeReturns (O.samplePaths s))) j f
        rw [hsub] at this
        exact this (by simpa using hin)
      rcases res with err | stats
      · simp only [List.mem_cons] at hmem
        rcases hmem with h | h | h | h
        · exact absurd h (by simp)
        · exact absurd h (by simp)
        · exact absurd h (by simp)
        · exact hflag h
      · simp only [List.mem_append, List.mem_cons] at hmem
        rcases hmem with (h | h | h | h) | h
        · exact absurd h (by simp)
        · exact absurd h (by simp)
        · exact absurd h (by simp)
        · exact hflag h
        · rcases Bool.dichotomy cfg.hasWriter with hw | hw <;> rw [hw] at h <;> simp at h
  · have ha : advantage_source O nus s' e' paths false
        = (py_unpack3 (process_replay O e' s' nus), [.getSample nus]) := rfl
    unfold update_policy
    rw [ha]
    rcases hp : py_unpack3 (process_replay O e' s' nus) with err | ⟨oo, aa, ww⟩
    · simp
    · dsimp only
      rcases update_from_states_actions O s' oo aa (O.normalize ww) with ⟨r, s1, evs1⟩
      dsimp only
      split <;> simp

/-- Claim C3, counterexample to "otherwise it uses a replay-buffer sample
only if fit_off_policy is enabled": with `fit_off_policy = False` (and
`fit_on_policy = True`, two sub-iterations per call) the second sub-iteration
still draws a replay-buffer sample. -/
theorem replay_used_without_fit_off_policy :
    (cfgTest false).fit_off_policy = false ∧
    Event.subIterFlag 1 false
      ∈ (train_step (Otest [.fin 1]) (cfgTest false) sTest () (some 1)).2.2.2 ∧
    Event.getSample 5
      ∈ (train_step (Otest [.fin 1]) (cfgTest false) sTest () (some 1)).2.2.2 :=
  ⟨rfl, by decide, by decide⟩

/-- Witness for `advantage_source_selection` at a concrete two-sub-iteration
run: the flag recorded for sub-iteration 1 is `false` although
`fit_on_policy` is enabled, and the `fit_on_policy=False` call draws from the
buffer. -/
theorem advantage_source_selection_witness :
    false = ((cfgTest false).fit_on_policy && 1 == 0) ∧
    Event.getSample 5 ∈ (update_policy (Otest [.fin 1]) 5 sTest () pathsTest false).2.2 := by
  constructor
  · exact (advantage_source_selection (Otest [.fin 1]) (cfgTest false) sTest ()
      (some 1) 5 sTest () pathsTest).2.1 1 false (by decide)
  · exact (advantage_source_selection (Otest [.fin 1]) (cfgTest false) sTest ()
      (some 1) 5 sTest () pathsTest).2.2

/-- Claim C4: within one sub-iteration the reference parameters are frozen:
the in-step write of `update_from_states_actions` uses `set_old=False` and
leaves the reference untouched while the surrogate and KL are evaluated, and
the reference is overwritten with the new parameters only by the final
`set_param_values(new_params, set_new=True, set_old=True)` after the fault
check succeeds — on the error path the reference still holds its pre-step
value, and on the success path the trace shows exactly the two writes in
order. -/
theorem reference_params_frozen {E : Type} (O : Oracle E) (nus : ℕ) (s : PolicyParams)
    (e : E) (paths : List Path) (b : Bool) :
    (∀ obs act w, (update_from_states_actions O s obs act w).2.1.old = s.old) ∧
    (∀ (err : PyErr) (s' : PolicyParams) (evs : List Event),
      update_policy O nus s e paths b = (.error err, s', evs) → s'.old = s.old) ∧
    (∀ (st : UpdateStats) (s' : PolicyParams) (evs : List Event),
      update_policy O nus s e paths b = (.ok st, s', evs) →
      s'.old = s'.cur ∧
      evs.filter Event.isSetParams
        = [.setParams s'.cur true false, .setParams s'.cur true true]) := by
  refine ⟨fun obs act w => rfl, ?_, ?_⟩
  · intro err s' evs h
    unfold update_policy at h
    rcases hs : advantage_source O nus s e paths b with ⟨res, evsA⟩
    rw [hs] at h
    rcases res with errA | ⟨obs, act, w⟩
    · dsimp only at h
      simp only [Prod.mk.injEq] at h
      obtain ⟨h1, h2, h3⟩ := h
      rw [← h2]
    · dsimp only at h
      rcases hu : update_from_states_actions O s obs act (O.normalize w) with ⟨r, s1, evs1⟩
      rw [hu] at h
      dsimp only at h
      by_cases hn : isnanAny r.new_params = true
      · rw [if_pos hn] at h
        simp only [Prod.mk.injEq] at h
        obtain ⟨h1, h2, h3⟩ := h
        rw [← h2]
        have hold : (update_from_states_actions O s obs act (O.normalize w)).2.1.old
            = s.old := rfl
        rw [hu] at hold
        exact hold
      · rw [if_neg hn] at h
        exact absurd h (by simp)
  · intro st s' evs h
    unfold update_policy at h
    rcases hs : advantage_source O nus s e paths b with ⟨res, evsA⟩
    have hevs := advantage_source_events O nus s e paths b
    rw [hs] at hevs
    simp only at hevs
    rw [hs] at h
    rcases res with errA | ⟨obs, act, w⟩
    · exact absurd h (by simp)
    · dsimp only at h
      simp only [update_from_states_actions] at h
      by_cases hn : isnanAny (addScaled s.cur
          (O.stepSize (O.flatVpg s.cur obs act (O.normalize w))
            (O.naturalGrad s.cur obs act (O.flatVpg s.cur obs act (O.normalize w)))).1
          (O.naturalGrad s.cur obs act (O.flatVpg s.cur obs act (O.normalize w)))) = true
      · rw [if_pos hn] at h
        exact absurd h (by simp)
      · rw [if_neg hn] at h
        simp only [Prod.mk.injEq] at h
        obtain ⟨h1, h2, h3⟩ := h
        subst h2
        subst h3
        refine ⟨rfl, ?_⟩
        rcases hevs with hA | hA <;> subst hA <;>
          simp [List.filter_append, List.filter_cons, Event.isSetParams, setParamValues]

/-- Witness for `reference_params_frozen`: the NaN error path keeps the
reference at its pre-step value; the success path ends with
reference = current and exactly the two parameter writes in the trace. -/
theorem reference_params_frozen_witness :
    ((⟨[.nan], [.fin 0]⟩ : PolicyParams).old = sTest.old) ∧
    ((⟨[.fin 1], [.fin 1]⟩ : PolicyParams).old = (⟨[.fin 1], [.fin 1]⟩ : PolicyParams).cur ∧
      ([.surrogate, .setParams [.fin 1] true false, .surrogate, .klDivergence,
        .setParams [.fin 1] true true] : List Event).filter Event.isSetParams
        = [.setParams (⟨[.fin 1], [.fin 1]⟩ : PolicyParams).cur true false,
           .setParams (⟨[.fin 1], [.fin 1]⟩ : PolicyParams).cur true true]) := by
  constructor
  · exact (reference_params_frozen (Otest [.nan]) 5 sTest () pathsTest true).2.1
      .runtimeError ⟨[.nan], [.fin 0]⟩ [.surrogate, .setParams [.nan] true false] (by decide)
  · exact (reference_params_frozen (Otest [.fin 1]) 5 sTest () pathsTest true).2.2
      ⟨.fin 1, .fin 1, .fin 0, .fin 0, .fin 0, .fin 0, .fin 0⟩ ⟨[.fin 1], [.fin 1]⟩
      [.surrogate, .setParams [.fin 1] true false, .surrogate, .klDivergence,
        .setParams [.fin 1] true true] (by decide)

end Mjrl
